import Mathlib

/-!
Shallow embedding of the content-extraction pipeline of `src/services/content_extractor.rs`
(together with the parts of `src/services/storage_service.rs` it calls), and proofs of the
behavioural claims about it.

Modelling conventions:
* Rust `String`/`&str` become Lean `String`; byte buffers become `List Nat`.
* A ZIP archive opened with `ZipArchive::new` is modelled by the oracle result of that call:
  `Except String (List Member)` — the error side models an open failure, the ok side gives the
  members in index order, each `Member` carrying the oracle results of `read_to_end` /
  `read_to_string` on it.  (`by_index` failures are not modelled separately: a member whose
  header is unreadable is simply absent from the list.)
* The S3 client call inside `StorageService::upload_bytes` is an oracle
  `put : key → bytes → content_type → Except String Unit`; everything around it
  (key layout, CDN-URL composition, error wrapping) is translated from the source.
* `chrono::Utc::now().timestamp_millis()` is an ambient-state read; `sanitize_filename` takes the
  sampled value as an explicit argument and phase 2 takes a per-call oracle `ts : Nat → Int`
  (the code samples the clock once per uploaded image).
* `HashMap<String, String>` is modelled by an association list in which an insert removes the
  overwritten entry and prepends the new one, so lookup sees exactly the latest binding and
  iteration visits each key once (`HashMap` iteration order is unspecified in Rust; the model
  fixes recency order).
* The `regex` crate patterns used by the source are hand-compiled into character-list scanners
  with the leftmost, non-overlapping match semantics of `Regex::captures_iter` /
  `Regex::replace_all`; `.` does not match a newline, quantifier greediness/laziness is resolved
  to the deterministic behaviour each pattern forces.
-/

namespace NApi

/-- Substring test on character lists: `hasSubList sub cs` iff `sub` occurs contiguously in
`cs` (Rust `str::contains`). An empty pattern occurs everywhere. -/
def hasSubList (sub : List Char) : List Char → Bool
  | [] => sub.isEmpty
  | c :: cs => sub.isPrefixOf (c :: cs) || hasSubList sub cs

/-- Rust `str::contains(sub)` on strings. -/
def containsSub (s sub : String) : Bool := hasSubList sub.data s.data

/-- Rust `str::ends_with(suf)` on strings. -/
def endsWithStr (s suf : String) : Bool := suf.data.isSuffixOf s.data

/-- Rust `str::starts_with(pre)` on strings. -/
def startsWithStr (s pre : String) : Bool := pre.data.isPrefixOf s.data

/-- Rust `str::to_lowercase()` as it behaves on the ASCII member names and markup this code
compares (`Char.toLower` lowercases the ASCII range and is the identity elsewhere). -/
def lowerStr (s : String) : String := String.mk (s.data.map Char.toLower)

/-- Rust `str::replace(pat, to)` with a nonempty pattern: every leftmost, non-overlapping
occurrence of `pat` is replaced by `to`. The fuel starts at the list length; every step either
copies one character or jumps past a nonempty occurrence, so the scan is exact. -/
def replaceAllAux (pat rep : List Char) : Nat → List Char → List Char
  | 0, cs => cs
  | _ + 1, [] => []
  | fuel + 1, c :: cs =>
    if pat ≠ [] ∧ pat.isPrefixOf (c :: cs) then
      rep ++ replaceAllAux pat rep fuel ((c :: cs).drop pat.length)
    else c :: replaceAllAux pat rep fuel cs

/-- Rust `str::replace(pat, to)` on strings. -/
def replaceAll (s pat rep : String) : String :=
  String.mk (replaceAllAux pat.data rep.data s.data.length s.data)

/-- Rust `path.rsplit('/').next().unwrap_or(path)`: the substring after the last `/`
(the whole string when there is no `/`). -/
def basenameOf (path : String) : String :=
  String.mk (path.data.reverse.takeWhile (fun c => c != '/')).reverse

/-- Modelled from the spec: the application error enum of `src/errors.rs`, which is declared in
`lib.rs` but absent from the sources. The two constructors are the ones the extractor and the
storage service actually build (`AppError::BadRequest`, `AppError::Internal`); the spec's error
taxonomy maps `UnsupportedFormat`/`InvalidArchive` to `BadRequest`… messages and
`ReadFailure`/`StorageFailure` to `Internal`… messages. -/
inductive AppError
  | BadRequest (msg : String)
  | Internal (msg : String)
deriving DecidableEq, Repr

/-- `ContentFormat` from `content_extractor.rs` lines 31-36. -/
inductive ContentFormat
  | Epub
  | Docx
  | Unknown
deriving DecidableEq, Repr

/-- `ExtractedImage` from `content_extractor.rs` lines 18-28 (`size: u64` becomes `Nat`). -/
structure ExtractedImage where
  original_path : String
  cdn_url : String
  content_type : String
  size : Nat
deriving DecidableEq, Repr

/-- `ExtractedContent` from `content_extractor.rs` lines 10-16. -/
structure ExtractedContent where
  html_content : String
  images : List ExtractedImage
deriving DecidableEq, Repr

/-- One phase-1 pending image: the tuple `(name, buffer, content_type, size)` pushed at
`content_extractor.rs` lines 106 / 190. -/
structure Pending where
  name : String
  buffer : List Nat
  content_type : String
  size : Nat
deriving DecidableEq, Repr

/-- An archive member as seen by the pipeline: its name plus the oracle outcomes of reading it
as raw bytes (`read_to_end`) or as UTF-8 text (`read_to_string`). -/
structure Member where
  name : String
  readBytes : Except String (List Nat)
  readText : Except String String

/-- The `image_url_map : HashMap<String, String>`. -/
abbrev UrlMap := List (String × String)

/-- `HashMap::insert`: overwrite any existing binding of `k`. -/
def mapInsert (m : UrlMap) (k v : String) : UrlMap :=
  (k, v) :: m.filter (fun p => p.1 != k)

/-- `HashMap::get`. -/
def mapGet (m : UrlMap) (k : String) : Option String := List.lookup k m

/-- The lookup chain `url_map.get(original).or_else(|| url_map.get(basename))`
(`content_extractor.rs` lines 278 / 289). -/
def resolveRef (m : UrlMap) (original : String) : Option String :=
  match mapGet m original with
  | some u => some u
  | none => mapGet m (basenameOf original)

/-- Model of `mime_guess::from_path(name).first_or_octet_stream().to_string()` restricted to the
extensions `is_image_file` admits (the only names it is applied to). -/
def mime_from_path (name : String) : String :=
  let lower := lowerStr name
  if endsWithStr lower ".jpg" || endsWithStr lower ".jpeg" then "image/jpeg"
  else if endsWithStr lower ".png" then "image/png"
  else if endsWithStr lower ".gif" then "image/gif"
  else if endsWithStr lower ".webp" then "image/webp"
  else if endsWithStr lower ".svg" then "image/svg+xml"
  else "application/octet-stream"

/-- The ZIP local-file-header signature checked at `content_extractor.rs` line 55. -/
def zipMagic : List Nat := [0x50, 0x4B, 0x03, 0x04]

/-- The member-name scan of `detect_format` (lines 62-72): per member, the EPUB test first,
then the DOCX test; first match wins. Members whose `by_index` read fails are skipped by the
source and are absent from the oracle list. -/
def detectScan : List String → ContentFormat
  | [] => ContentFormat.Unknown
  | name :: rest =>
    let n := lowerStr name
    if n == "mimetype" || containsSub n "meta-inf/container.xml" then ContentFormat.Epub
    else if containsSub n "[content_types].xml" || containsSub n "word/document.xml" then
      ContentFormat.Docx
    else detectScan rest

/-- `ContentExtractor::detect_format` (lines 48-76). `zipNames` is the oracle outcome of
`ZipArchive::new` on these bytes: `none` when the bytes do not open as a ZIP. -/
def detect_format (bytes : List Nat) (zipNames : Option (List String)) : ContentFormat :=
  if bytes.length < 4 then ContentFormat.Unknown
  else if bytes.take 4 != zipMagic then ContentFormat.Unknown
  else
    match zipNames with
    | some names => detectScan names
    | none => ContentFormat.Unknown

/-- `ContentExtractor::is_image_file` (lines 245-253). -/
def is_image_file (name : String) : Bool :=
  let lower := lowerStr name
  endsWithStr lower ".jpg" || endsWithStr lower ".jpeg" || endsWithStr lower ".png"
    || endsWithStr lower ".gif" || endsWithStr lower ".webp" || endsWithStr lower ".svg"

/-- `ContentExtractor::is_content_file` (lines 255-260). -/
def is_content_file (name : String) : Bool :=
  let lower := lowerStr name
  (endsWithStr lower ".html" || endsWithStr lower ".xhtml" || endsWithStr lower ".htm")
    && !(containsSub lower "toc") && !(containsSub lower "nav")

/-- `ContentExtractor::sanitize_filename` (lines 262-267) with the sampled
`timestamp_millis` made explicit. -/
def sanitize_filename (ts : Int) (path : String) : String :=
  let basename := basenameOf path
  toString ts ++ "_" ++ replaceAll basename " " "_"

/-- `StorageService` (storage_service.rs lines 9-14): the bucket and credentials live inside the
opaque `put` oracle that models `client.put_object().…().send().await`. -/
structure StorageService where
  cdn_url : String
  put : String → List Nat → String → Except String Unit

/-- `StorageService::get_public_url` (storage_service.rs lines 78-80). -/
def get_public_url (s : StorageService) (key : String) : String :=
  String.mk (s.cdn_url.data.reverse.dropWhile (fun c => c == '/')).reverse ++ "/" ++ key

/-- `StorageService::upload_bytes` (storage_service.rs lines 43-62). -/
def upload_bytes (s : StorageService) (key : String) (bytes : List Nat)
    (content_type : String) : Except AppError String :=
  match s.put key bytes content_type with
  | Except.error e => Except.error (AppError.Internal ("R2 upload failed: " ++ e))
  | Except.ok _ => Except.ok (get_public_url s key)

/-- `StorageService::upload_image` (storage_service.rs lines 65-75). -/
def upload_image (s : StorageService) (folder book_id filename : String) (bytes : List Nat)
    (content_type : String) : Except AppError String :=
  upload_bytes s (folder ++ "/" ++ book_id ++ "/" ++ filename) bytes content_type

/-- Phase 1 of both pipelines (`content_extractor.rs` lines 88-108 and 172-192): walk the
members in index order, and for each one passing the pipeline's filter read its bytes
(`read_to_end`, wrapped in `Internal` on failure) and emit a `Pending` in member order. -/
def collectImages (qualifies : String → Bool) : List Member → Except AppError (List Pending)
  | [] => Except.ok []
  | m :: rest =>
    if qualifies m.name then
      match m.readBytes with
      | Except.error e => Except.error (AppError.Internal ("Failed to read image: " ++ e))
      | Except.ok buffer =>
        match collectImages qualifies rest with
        | Except.error e => Except.error e
        | Except.ok ps =>
          Except.ok ({ name := m.name, buffer := buffer,
                       content_type := mime_from_path m.name, size := buffer.length } :: ps)
    else collectImages qualifies rest

/-- The member filter of the DOCX phase 1 (`content_extractor.rs` line 180). -/
def docxMediaFilter (name : String) : Bool :=
  startsWithStr name "word/media/" && is_image_file name

/-- The upload of one pending image inside phase 2 (`content_extractor.rs` lines 113-118 /
197-202): derive the sanitized filename from the `i`-th clock sample and call
`upload_image("content-images", book_id, filename, buffer, content_type)`. -/
def uploadOne (s : StorageService) (book_id : String) (ts : Nat → Int) (i : Nat)
    (p : Pending) : Except AppError String :=
  upload_image s "content-images" book_id (sanitize_filename (ts i) p.name)
    p.buffer p.content_type

/-- Phase 2 of both pipelines (`content_extractor.rs` lines 112-131 / 196-214): upload each
pending image in order (the `?` on the upload aborts the whole call), insert the full path and
then the basename into the URL map, and append an `ExtractedImage` in pending order. -/
def phase2 (s : StorageService) (book_id : String) (ts : Nat → Int) :
    Nat → UrlMap → List Pending → Except AppError (List ExtractedImage × UrlMap)
  | _, url_map, [] => Except.ok ([], url_map)
  | i, url_map, p :: rest =>
    match uploadOne s book_id ts i p with
    | Except.error e => Except.error e
    | Except.ok cdn_url =>
      let url_map := mapInsert (mapInsert url_map p.name cdn_url) (basenameOf p.name) cdn_url
      match phase2 s book_id ts (i + 1) url_map rest with
      | Except.error e => Except.error e
      | Except.ok (imgs, finalMap) =>
        Except.ok ({ original_path := p.name, cdn_url := cdn_url,
                     content_type := p.content_type, size := p.size } :: imgs, finalMap)

/-- A character is one of the two quote characters of the character class `["']`. -/
def isQuoteChar (c : Char) : Bool := c == Char.ofNat 34 || c == Char.ofNat 39

/-- A one-character string holding a double quote. -/
def quoteStr : String := String.mk [Char.ofNat 34]

/-- Match the pattern `attr["']([^"']+)["']` anchored at the start of `cs` (with `attr` the
literal `src=` or `xlink:href=`): returns `(whole match, captured value, rest)`. The
quantifier `[^"']+` is forced: it must stop at the first quote character and be nonempty. -/
def matchAttrAt (attr : List Char) (cs : List Char) :
    Option (List Char × List Char × List Char) :=
  if attr.isPrefixOf cs then
    match cs.drop attr.length with
    | q1 :: rest =>
      if isQuoteChar q1 then
        let value := rest.takeWhile (fun c => !(isQuoteChar c))
        match value, rest.drop value.length with
        | [], _ => none
        | _ :: _, q2 :: rest3 =>
          if isQuoteChar q2 then some (attr ++ q1 :: (value ++ [q2]), value, rest3)
          else none
        | _ :: _, [] => none
      else none
    | [] => none
  else none

/-- Leftmost, non-overlapping scan for `matchAttrAt` matches, as `Regex::captures_iter`
produces them. The fuel starts at the list length; every step either consumes one character or
jumps past a nonempty match, so the scan is exact. -/
def findAttrMatchesAux (attr : List Char) : Nat → List Char → List (List Char × List Char)
  | 0, _ => []
  | _ + 1, [] => []
  | fuel + 1, c :: cs =>
    match matchAttrAt attr (c :: cs) with
    | some (whole, value, rest) => (whole, value) :: findAttrMatchesAux attr fuel rest
    | none => findAttrMatchesAux attr fuel cs

/-- All `(whole, captured)` matches of `attr["']([^"']+)["']` in `cs`, left to right. -/
def findAttrMatches (attr : List Char) (cs : List Char) : List (List Char × List Char) :=
  findAttrMatchesAux attr cs.length cs

/-- One replacement loop of `replace_image_urls` (`content_extractor.rs` lines 274-281 /
285-292): fold over the captures taken from the ORIGINAL content; on a resolved lookup replace
every occurrence of the whole match in the accumulated result with
`attrOut ++ "<url in double quotes>"`. -/
def replaceLoop (url_map : UrlMap) (attrOut : String) :
    List (List Char × List Char) → String → String
  | [], result => result
  | (whole, value) :: rest, result =>
    let original := String.mk value
    match resolveRef url_map original with
    | some cdn_url =>
      replaceLoop url_map attrOut rest
        (replaceAll result (String.mk whole) (attrOut ++ quoteStr ++ cdn_url ++ quoteStr))
    | none => replaceLoop url_map attrOut rest result

/-- `ContentExtractor::replace_image_urls` (lines 269-295): the `src=` loop then the
`xlink:href=` loop, both iterating captures of the original `content` while replacing inside
the running `result`. -/
def replace_image_urls (content : String) (url_map : UrlMap) : String :=
  let result := replaceLoop url_map "src=" (findAttrMatches "src=".data content.data) content
  replaceLoop url_map "xlink:href="
    (findAttrMatches "xlink:href=".data content.data) result

/-- Second pass of the EPUB pipeline (`content_extractor.rs` lines 137-153): for each content
file read its text (`read_to_string`, wrapped in `Internal` on failure) and push the rewritten
HTML, in member order. -/
def collectHtml (url_map : UrlMap) : List Member → Except AppError (List String)
  | [] => Except.ok []
  | m :: rest =>
    if is_content_file m.name then
      match m.readText with
      | Except.error e => Except.error (AppError.Internal ("Failed to read content: " ++ e))
      | Except.ok content =>
        match collectHtml url_map rest with
        | Except.error e => Except.error e
        | Except.ok parts => Except.ok (replace_image_urls content url_map :: parts)
    else collectHtml url_map rest

/-- The separator `html_parts.join` uses at `content_extractor.rs` line 155. -/
def chapterBreakSep : String := "\n\n<!-- Chapter Break -->\n\n"

/-- `ContentExtractor::extract_epub` (lines 79-161). `archive` is the oracle outcome of
`ZipArchive::new` on the input bytes; the reopen between the passes yields the same members
because the bytes are unchanged. -/
def extract_epub (s : StorageService) (archive : Except String (List Member))
    (book_id : String) (ts : Nat → Int) : Except AppError ExtractedContent :=
  match archive with
  | Except.error e => Except.error (AppError.BadRequest ("Invalid EPUB file: " ++ e))
  | Except.ok members =>
    match collectImages is_image_file members with
    | Except.error e => Except.error e
    | Except.ok pending_images =>
      match phase2 s book_id ts 0 [] pending_images with
      | Except.error e => Except.error e
      | Except.ok (images, image_url_map) =>
        match collectHtml image_url_map members with
        | Except.error e => Except.error e
        | Except.ok html_parts =>
          Except.ok { html_content := String.intercalate chapterBreakSep html_parts,
                      images := images }

/-- The lazy group `(.*?)` followed by the closing literal: returns the shortest capture such
that `closeLit` follows, failing on a newline (the default `.` of the `regex` crate does not
match a line break) or at end of input. -/
def lazyCapture (closeLit : List Char) : List Char → Option (List Char × List Char)
  | [] => none
  | c :: cs =>
    if closeLit.isPrefixOf (c :: cs) then some ([], (c :: cs).drop closeLit.length)
    else if c == '\n' then none
    else
      match lazyCapture closeLit cs with
      | some (cap, rest) => some (c :: cap, rest)
      | none => none

/-- Match `<w:p[^>]*>(.*?)</w:p>` anchored at the start of `cs`: returns
`(captured paragraph body, rest)`. `[^>]*` is forced to the maximal run before the first `>`. -/
def matchParaAt (cs : List Char) : Option (List Char × List Char) :=
  if "<w:p".data.isPrefixOf cs then
    let afterTag := cs.drop 4
    let attrs := afterTag.takeWhile (fun c => c != '>')
    match afterTag.drop attrs.length with
    | '>' :: body => lazyCapture "</w:p>".data body
    | _ => none
  else none

/-- Leftmost, non-overlapping scan for paragraph matches (fuel-exact as in
`findAttrMatchesAux`). -/
def findParasAux : Nat → List Char → List (List Char)
  | 0, _ => []
  | _ + 1, [] => []
  | fuel + 1, c :: cs =>
    match matchParaAt (c :: cs) with
    | some (cap, rest) => cap :: findParasAux fuel rest
    | none => findParasAux fuel cs

/-- Match `<w:t[^>]*>([^<]*)</w:t>` anchored at the start of `cs`: returns
`(captured run text, rest)`. -/
def matchTextAt (cs : List Char) : Option (List Char × List Char) :=
  if "<w:t".data.isPrefixOf cs then
    let afterTag := cs.drop 4
    let attrs := afterTag.takeWhile (fun c => c != '>')
    match afterTag.drop attrs.length with
    | '>' :: body =>
      let txt := body.takeWhile (fun c => c != '<')
      if "</w:t>".data.isPrefixOf (body.drop txt.length) then
        some (txt, (body.drop txt.length).drop 6)
      else none
    | _ => none
  else none

/-- Leftmost, non-overlapping scan for text-run matches. -/
def findTextsAux : Nat → List Char → List (List Char)
  | 0, _ => []
  | _ + 1, [] => []
  | fuel + 1, c :: cs =>
    match matchTextAt (c :: cs) with
    | some (txt, rest) => txt :: findTextsAux fuel rest
    | none => findTextsAux fuel cs

/-- Largest `j ≤ bound` such that `lit` occurs at offset `j` of `cs` (the position a greedy
`[^>]*` backtracks to before a required literal). -/
def lastPrefixPos (lit : List Char) (cs : List Char) : Nat → Option Nat
  | 0 => if lit.isPrefixOf cs then some 0 else none
  | j + 1 =>
    if lit.isPrefixOf (cs.drop (j + 1)) then some (j + 1) else lastPrefixPos lit cs j

/-- Match the blip pattern `<a:blip[^>]*r:embed="([^"]+)"[^>]*/>` anchored at the start of
`cs`: returns `(captured relationship id, rest)`. The greedy `[^>]*` quantifiers resolve to the
latest occurrence of `r:embed="` inside the no-`>` span, and to a trailing `/>` sitting at the
first `>` after the closing quote. -/
def matchBlipAt (cs : List Char) : Option (List Char × List Char) :=
  if "<a:blip".data.isPrefixOf cs then
    let after := cs.drop 7
    let span := after.takeWhile (fun c => c != '>')
    match lastPrefixPos ("r:embed=" ++ quoteStr).data after span.length with
    | none => none
    | some j =>
      let afterLit := after.drop (j + 9)
      let relId := afterLit.takeWhile (fun c => c != Char.ofNat 34)
      match relId, afterLit.drop relId.length with
      | [], _ => none
      | _ :: _, [] => none
      | _ :: _, _ :: tail =>
        let run := tail.takeWhile (fun c => c != '>')
        if run.length = 0 then none
        else if "/>".data.isPrefixOf (tail.drop (run.length - 1)) then
          some (relId, tail.drop (run.length + 1))
        else none
  else none

/-- Leftmost, non-overlapping scan for blip matches. -/
def findBlipsAux : Nat → List Char → List (List Char)
  | 0, _ => []
  | _ + 1, [] => []
  | fuel + 1, c :: cs =>
    match matchBlipAt (c :: cs) with
    | some (relId, rest) => relId :: findBlipsAux fuel rest
    | none => findBlipsAux fuel cs

/-- The inner search of the blip loop (`content_extractor.rs` lines 325-332): walk the map
entries and return the URL of the first entry whose path contains the relationship id or whose
basename is contained in it (`break` after the first hit). -/
def findImgUrl (relId : String) : UrlMap → Option String
  | [] => none
  | (path, url) :: rest =>
    if containsSub path relId || containsSub relId (basenameOf path) then some url
    else findImgUrl relId rest

/-- The per-paragraph body of `docx_xml_to_html` (lines 308-348): formatting flags are literal
substring tests, run texts are concatenated, one `<img>` is appended per resolved blip, and the
paragraph is wrapped according to the flags (or emitted as `<p></p>` when empty). -/
def paraToHtml (image_url_map : UrlMap) (para : List Char) : String :=
  let paraStr := String.mk para
  let is_bold := containsSub paraStr "<w:b/>"
  let is_italic := containsSub paraStr "<w:i/>"
  let textPart := String.mk (List.flatten (findTextsAux para.length para))
  let para_html := (findBlipsAux para.length para).foldl
    (fun acc relId =>
      match findImgUrl (String.mk relId) image_url_map with
      | some url => acc ++ "<img src=\"" ++ url ++ "\" alt=\"image\" />"
      | none => acc)
    textPart
  if para_html == "" then "<p></p>\n"
  else if is_bold && is_italic then "<p><strong><em>" ++ para_html ++ "</em></strong></p>\n"
  else if is_bold then "<p><strong>" ++ para_html ++ "</strong></p>\n"
  else if is_italic then "<p><em>" ++ para_html ++ "</em></p>\n"
  else "<p>" ++ para_html ++ "</p>\n"

/-- The fallback `strip_re.replace_all(xml, "")` with pattern `<[^>]+>` (lines 350-354):
leftmost, non-overlapping tag matches are deleted, everything else is copied. -/
def stripTagsAux : Nat → List Char → List Char
  | 0, cs => cs
  | _ + 1, [] => []
  | fuel + 1, c :: cs =>
    if c == '<' then
      let inner := cs.takeWhile (fun x => x != '>')
      match inner, cs.drop inner.length with
      | _ :: _, '>' :: rest => stripTagsAux fuel rest
      | _, _ => c :: stripTagsAux fuel cs
    else c :: stripTagsAux fuel cs

/-- `ContentExtractor::docx_xml_to_html` (lines 297-357). -/
def docx_xml_to_html (xml : String) (image_url_map : UrlMap) : String :=
  let paras := findParasAux xml.data.length xml.data
  let html := String.join (paras.map (paraToHtml image_url_map))
  if html == "" then String.mk (stripTagsAux xml.data.length xml.data) else html

/-- `ContentExtractor::extract_docx` (lines 164-232). The `word/document.xml` member is looked
up by exact name; an absent member or a failed `read_to_string` leaves `document_xml` empty
(`std::io::Read::read_to_string` does not touch the buffer on a UTF-8 error, and both failures
are discarded by the source). -/
def extract_docx (s : StorageService) (archive : Except String (List Member))
    (book_id : String) (ts : Nat → Int) : Except AppError ExtractedContent :=
  match archive with
  | Except.error e => Except.error (AppError.BadRequest ("Invalid DOCX file: " ++ e))
  | Except.ok members =>
    match collectImages docxMediaFilter members with
    | Except.error e => Except.error e
    | Except.ok pending_images =>
      match phase2 s book_id ts 0 [] pending_images with
      | Except.error e => Except.error e
      | Except.ok (images, image_url_map) =>
        let document_xml :=
          match members.find? (fun m => m.name == "word/document.xml") with
          | some m =>
            match m.readText with
            | Except.ok sX => sX
            | Except.error _ => ""
          | none => ""
        Except.ok { html_content := docx_xml_to_html document_xml image_url_map,
                    images := images }

/-- `ContentExtractor::extract` (lines 235-243). `zipNames` is the archive-open oracle used by
`detect_format`; `archive` is the one used by the chosen pipeline (both derive from the same
bytes). -/
def extract (s : StorageService) (bytes : List Nat) (zipNames : Option (List String))
    (archive : Except String (List Member)) (book_id : String) (ts : Nat → Int) :
    Except AppError ExtractedContent :=
  match detect_format bytes zipNames with
  | ContentFormat.Epub => extract_epub s archive book_id ts
  | ContentFormat.Docx => extract_docx s archive book_id ts
  | ContentFormat.Unknown =>
    Except.error (AppError.BadRequest
      "Unsupported file format. Only EPUB and DOCX are supported.")

/-! Supporting definitions: the lookup discipline the phase-2 map actually follows, and
concrete instances used to exhibit behaviours of the pipeline. -/

/-- The lookup discipline of the phase-2 map, read off from the insertion order: the LAST
processed `(path, url)` pair whose path or basename equals the key provides the URL. -/
def lastWins : List (String × String) → String → Option String
  | [], _ => none
  | (name, url) :: rest, k =>
    match lastWins rest k with
    | some u => some u
    | none => if k = name ∨ k = basenameOf name then some url else none

/-- A storage whose every put succeeds. -/
def okStorage : StorageService := { cdn_url := "https://cdn", put := fun _ _ _ => Except.ok () }

/-- A storage whose every put fails with transport error `boom`. -/
def failStorage : StorageService :=
  { cdn_url := "https://cdn", put := fun _ _ _ => Except.error "boom" }

/-- Two pending images at different archive paths sharing the basename `img.png`. -/
def twoImgPends : List Pending :=
  [{ name := "img.png", buffer := [1], content_type := "image/png", size := 1 },
   { name := "dir/img.png", buffer := [2], content_type := "image/png", size := 1 }]

/-- The URL the first of `twoImgPends` uploads to (clock sample 0). -/
def urlZero : String := "https://cdn/content-images/bk/0_img.png"

/-- The URL the second of `twoImgPends` uploads to (clock sample 1). -/
def urlOne : String := "https://cdn/content-images/bk/1_img.png"

/-- The `images` sequence phase 2 produces from `twoImgPends` under `okStorage`. -/
def twoImgImages : List ExtractedImage :=
  [{ original_path := "img.png", cdn_url := urlZero, content_type := "image/png", size := 1 },
   { original_path := "dir/img.png", cdn_url := urlOne, content_type := "image/png", size := 1 }]

/-- The URL map phase 2 produces from `twoImgPends` under `okStorage`. -/
def twoImgMap : UrlMap := [("img.png", urlOne), ("dir/img.png", urlOne)]

/-- An archive with a single image member readable as bytes (EPUB layout). -/
def epubFailMembers : List Member :=
  [{ name := "img.png", readBytes := Except.ok [1], readText := Except.error "bin" }]

/-- An archive with a single image member readable as bytes (DOCX layout). -/
def docxFailMembers : List Member :=
  [{ name := "word/media/img.png", readBytes := Except.ok [2], readText := Except.error "bin" }]

/-- An archive with one content document and no images. -/
def oneDocMembers : List Member :=
  [{ name := "ch1.xhtml", readBytes := Except.error "bin", readText := Except.ok "<p>hi</p>" }]

/-- The text-reading oracle of `oneDocMembers`. -/
def oneDocText : Member → String := fun _ => "<p>hi</p>"

/-- A DOCX archive holding one media image and no `word/document.xml` member. -/
def docxNoDocMembers : List Member :=
  [{ name := "word/media/a.png", readBytes := Except.ok [7], readText := Except.error "bin" }]

/-- The first of `twoImgImages`. -/
def twoImgFirstImage : ExtractedImage :=
  { original_path := "img.png", cdn_url := urlZero, content_type := "image/png", size := 1 }

/-- The pending list phase 1 collects from `docxNoDocMembers`. -/
def noDocPending : List Pending :=
  [{ name := "word/media/a.png", buffer := [7], content_type := "image/png", size := 1 }]

/-- The images phase 2 produces from `noDocPending` under `okStorage`. -/
def noDocImages : List ExtractedImage :=
  [{ original_path := "word/media/a.png", cdn_url := "https://cdn/content-images/bk/0_a.png",
     content_type := "image/png", size := 1 }]

/-- The URL map phase 2 produces from `noDocPending` under `okStorage`. -/
def noDocMap : UrlMap :=
  [("a.png", "https://cdn/content-images/bk/0_a.png"),
   ("word/media/a.png", "https://cdn/content-images/bk/0_a.png")]

/-! Helper lemmas about the map model and the pipeline loops. -/

theorem lookup_filter_ne (k k' : String) (m : UrlMap) (h : k' ≠ k) :
    List.lookup k' (m.filter fun pr => pr.1 != k) = List.lookup k' m := by
  induction m with
  | nil => rfl
  | cons pr rest ih =>
    obtain ⟨k0, v0⟩ := pr
    by_cases h0 : k0 = k
    · subst h0
      have hb : (k' == k0) = false := by simp [h]
      simp [List.filter_cons, List.lookup, hb, ih]
    · have hb : (k0 != k) = true := by simp [h0]
      by_cases hk : k' = k0
      · subst hk
        simp [List.filter_cons, hb, List.lookup]
      · have hb2 : (k' == k0) = false := by simp [hk]
        simp [List.filter_cons, hb, List.lookup, hb2, ih]

theorem mapGet_mapInsert_self (m : UrlMap) (k v : String) :
    mapGet (mapInsert m k v) k = some v := by
  simp [mapGet, mapInsert, List.lookup]

theorem mapGet_mapInsert_ne (m : UrlMap) (k v k' : String) (h : k' ≠ k) :
    mapGet (mapInsert m k v) k' = mapGet m k' := by
  have hb : (k' == k) = false := by simp [h]
  simp [mapGet, mapInsert, List.lookup, hb, lookup_filter_ne k k' m h]

theorem replaceLoop_eq_of_unresolved (url_map : UrlMap) (attrOut : String)
    (caps : List (List Char × List Char)) (result : String)
    (h : ∀ c ∈ caps, resolveRef url_map (String.mk c.2) = none) :
    replaceLoop url_map attrOut caps result = result := by
  induction caps generalizing result with
  | nil => rfl
  | cons c rest ih =>
    obtain ⟨w, v⟩ := c
    have h0 : resolveRef url_map (String.mk v) = none := h (w, v) (by simp)
    simp only [replaceLoop, h0]
    exact ih result fun c hc => h c (List.mem_cons_of_mem _ hc)

/-! Claim theorems. -/

/-- C6: for every byte sequence shorter than 4 bytes, and for every byte sequence whose first
4 bytes are not the ZIP local-file-header signature `0x50 0x4B 0x03 0x04`, `detect_format`
returns `ContentFormat.Unknown` (and, being a total function of its inputs, it never raises
for any input). -/
theorem detect_format_unknown_of_short_or_bad_magic (bytes : List Nat)
    (zipNames : Option (List String))
    (h : bytes.length < 4 ∨ bytes.take 4 ≠ zipMagic) :
    detect_format bytes zipNames = ContentFormat.Unknown := by
  unfold detect_format
  by_cases h4 : bytes.length < 4
  · simp [h4]
  · have hb : bytes.take 4 ≠ zipMagic := h.resolve_left h4
    simp [h4, hb]

/-- Witness for C6: a 3-byte input is classified `Unknown` even when the ZIP-open oracle would
report an EPUB-looking member list. -/
theorem detect_format_unknown_of_short_or_bad_magic_witness :
    detect_format [1, 2, 3] (some ["mimetype"]) = ContentFormat.Unknown :=
  detect_format_unknown_of_short_or_bad_magic [1, 2, 3] (some ["mimetype"]) (by decide)

/-- C7: whenever `detect_format` returns `Unknown`, `extract` fails with the
`BadRequest "Unsupported file format…"` error (the spec's `UnsupportedFormat`); the
conclusion does not depend on the pipeline inputs `s`, `archive`, `book_id`, `ts`, so neither
pipeline is invoked. -/
theorem extract_unknown_format_bad_request (s : StorageService) (bytes : List Nat)
    (zipNames : Option (List String)) (archive : Except String (List Member))
    (book_id : String) (ts : Nat → Int)
    (h : detect_format bytes zipNames = ContentFormat.Unknown) :
    extract s bytes zipNames archive book_id ts
      = Except.error (AppError.BadRequest
          "Unsupported file format. Only EPUB and DOCX are supported.") := by
  unfold extract
  rw [h]

/-- Witness for C7: a non-ZIP input is rejected by `extract`. -/
theorem extract_unknown_format_bad_request_witness :
    extract failStorage [9, 9, 9, 9] none (Except.error "nozip") "bk" (fun _ => 0)
      = Except.error (AppError.BadRequest
          "Unsupported file format. Only EPUB and DOCX are supported.") :=
  extract_unknown_format_bad_request failStorage [9, 9, 9, 9] none (Except.error "nozip")
    "bk" (fun _ => 0) rfl

/-- C2 counterexample: two distinct qualifying members whose basenames coincide receive the
SAME storage filename when phase 2 samples the same millisecond for both, so
`sanitize_filename` does not guarantee uniqueness for duplicate basenames in different
directories. -/
theorem sanitize_filename_duplicate_basename_collision :
    sanitize_filename 0 "a/img.png" = sanitize_filename 0 "b/img.png"
      ∧ ("a/img.png" : String) ≠ "b/img.png" := by
  refine ⟨rfl, by decide⟩

/-- C2 amended: with the clock sample made explicit, two members sharing one timestamp get
distinct storage filenames exactly when their space-sanitized basenames differ; duplicate
basenames in different directories are NOT separated by the prefix when the samples
coincide. -/
theorem sanitize_filename_distinct_of_sanitized_basename_ne (ts : Int) (p q : String)
    (h : replaceAll (basenameOf p) " " "_" ≠ replaceAll (basenameOf q) " " "_") :
    sanitize_filename ts p ≠ sanitize_filename ts q := by
  intro hEq
  apply h
  have hd := congrArg String.data hEq
  simp only [sanitize_filename, String.data_append] at hd
  exact String.ext (List.append_cancel_left hd)

/-- Witness for the amended C2: distinct basenames stay distinct under one timestamp. -/
theorem sanitize_filename_distinct_witness :
    sanitize_filename 3 "a name.png" ≠ sanitize_filename 3 "dir/b.png" :=
  sanitize_filename_distinct_of_sanitized_basename_ne 3 "a name.png" "dir/b.png" (by decide)

/-- C8: converting a DOCX `document.xml` with one paragraph whose run carries the bold flag
and the text `Hello` yields HTML containing `<p><strong>Hello</strong></p>`. -/
theorem docx_bold_paragraph_hello :
    containsSub
      (docx_xml_to_html "<w:p><w:r><w:rPr><w:b/></w:rPr><w:t>Hello</w:t></w:r></w:p>" [])
      "<p><strong>Hello</strong></p>" = true := by decide

/-- C9: a markup string all of whose `src=` and `xlink:href=` captures fail to resolve in the
map both verbatim and by basename (`resolveRef … = none`, which subsumes the empty map) is
returned unchanged by `replace_image_urls`. -/
theorem replace_image_urls_unresolved_unchanged (content : String) (url_map : UrlMap)
    (h : ∀ c ∈ findAttrMatches "src=".data content.data
          ++ findAttrMatches "xlink:href=".data content.data,
        resolveRef url_map (String.mk c.2) = none) :
    replace_image_urls content url_map = content := by
  show replaceLoop url_map "xlink:href="
      (findAttrMatches "xlink:href=".data content.data)
      (replaceLoop url_map "src=" (findAttrMatches "src=".data content.data) content)
    = content
  rw [replaceLoop_eq_of_unresolved url_map "src=" _ content
      fun c hc => h c (List.mem_append_left _ hc)]
  exact replaceLoop_eq_of_unresolved url_map "xlink:href=" _ content
    fun c hc => h c (List.mem_append_right _ hc)

/-- Witness for C9: a document with one `src` and one `xlink:href` reference, neither of which
resolves in the singleton map, is returned verbatim. -/
theorem replace_image_urls_unresolved_unchanged_witness :
    replace_image_urls "<img src=\"missing.png\"/><use xlink:href=\"x/y.png\"/>" [("q", "r")]
      = "<img src=\"missing.png\"/><use xlink:href=\"x/y.png\"/>" :=
  replace_image_urls_unresolved_unchanged
    "<img src=\"missing.png\"/><use xlink:href=\"x/y.png\"/>" [("q", "r")] (by decide)

/-- C3 counterexample: rewriting is NOT idempotent for every map. With the map
`a ↦ b, b ↦ c`, one rewrite of `src="a"` yields `src="b"`, whose captured value resolves
again, so the second rewrite yields `src="c"`. -/
theorem replace_image_urls_not_idempotent_chained_map :
    replace_image_urls (replace_image_urls "src=\"a\"" [("a", "b"), ("b", "c")])
        [("a", "b"), ("b", "c")]
      ≠ replace_image_urls "src=\"a\"" [("a", "b"), ("b", "c")] := by decide

/-- C3 amended: rewriting twice with the same map yields the same output as rewriting once
PROVIDED the references captured in the once-rewritten string do not resolve in the map — the
substituted URLs do still match the attribute pattern, so idempotence needs the map's URLs
(and their basenames) not to be keys of the map, as is the case for the maps phase 2 builds
from archive paths. -/
theorem replace_image_urls_idempotent_of_unresolved_result (content : String)
    (url_map : UrlMap)
    (h : ∀ c ∈ findAttrMatches "src=".data (replace_image_urls content url_map).data
          ++ findAttrMatches "xlink:href=".data (replace_image_urls content url_map).data,
        resolveRef url_map (String.mk c.2) = none) :
    replace_image_urls (replace_image_urls content url_map) url_map
      = replace_image_urls content url_map := by
  show replaceLoop url_map "xlink:href="
      (findAttrMatches "xlink:href=".data (replace_image_urls content url_map).data)
      (replaceLoop url_map "src="
        (findAttrMatches "src=".data (replace_image_urls content url_map).data)
        (replace_image_urls content url_map))
    = replace_image_urls content url_map
  rw [replaceLoop_eq_of_unresolved url_map "src=" _ (replace_image_urls content url_map)
      fun c hc => h c (List.mem_append_left _ hc)]
  exact replaceLoop_eq_of_unresolved url_map "xlink:href=" _
    (replace_image_urls content url_map)
    fun c hc => h c (List.mem_append_right _ hc)

/-- Witness for the amended C3: one resolved reference, whose substituted URL no longer
resolves, is stable under a second rewrite. -/
theorem replace_image_urls_idempotent_witness :
    replace_image_urls (replace_image_urls "src=\"a.png\"" [("a.png", "https://cdn/x_a.png")])
        [("a.png", "https://cdn/x_a.png")]
      = replace_image_urls "src=\"a.png\"" [("a.png", "https://cdn/x_a.png")] :=
  replace_image_urls_idempotent_of_unresolved_result "src=\"a.png\""
    [("a.png", "https://cdn/x_a.png")] (by decide)

theorem phase2_error_of_upload_failure (s : StorageService) (book_id : String)
    (ts : Nat → Int) :
    ∀ (pre : List Pending) (p : Pending) (post : List Pending) (n : Nat) (m : UrlMap)
      (e : AppError),
      (∀ i, (hi : i < pre.length) →
        ∃ u, uploadOne s book_id ts (n + i) (pre.get ⟨i, hi⟩) = Except.ok u) →
      uploadOne s book_id ts (n + pre.length) p = Except.error e →
      phase2 s book_id ts n m (pre ++ p :: post) = Except.error e := by
  intro pre
  induction pre with
  | nil =>
    intro p post n m e _ hfail
    simp only [List.length_nil, Nat.add_zero] at hfail
    simp only [List.nil_append, phase2, hfail]
  | cons q rest ih =>
    intro p post n m e hok hfail
    obtain ⟨u, hu⟩ := hok 0 (by simp)
    have hu' : uploadOne s book_id ts n q = Except.ok u := by simpa using hu
    have hrec := ih p post (n + 1)
      (mapInsert (mapInsert m q.name u) (basenameOf q.name) u) e
      (fun i hi => by
        have h1 := hok (i + 1) (by simpa using Nat.succ_lt_succ hi)
        have harith : n + (i + 1) = n + 1 + i := by omega
        rw [harith] at h1
        simpa using h1)
      (by
        have harith : n + (q :: rest).length = n + 1 + rest.length := by
          simp only [List.length_cons]
          omega
        rw [harith] at hfail
        exact hfail)
    simp only [List.cons_append, phase2, List.append_eq, hu', hrec]

/-- C1: if, in either pipeline, the upload of the first not-yet-uploaded qualifying image
fails (all earlier uploads succeeded), the whole call returns exactly that storage error — the
`Internal "R2 upload failed: …"` that models the spec's `StorageFailure` — and no
`ExtractedContent` is produced. -/
theorem extract_upload_failure_aborts
    (s : StorageService) (book_id book_id' : String) (ts ts' : Nat → Int)
    (members members' : List Member) (pre post pre' post' : List Pending)
    (p q : Pending) (e e' : AppError)
    (hepub : collectImages is_image_file members = Except.ok (pre ++ p :: post))
    (hok : ∀ i, (hi : i < pre.length) →
      ∃ u, uploadOne s book_id ts i (pre.get ⟨i, hi⟩) = Except.ok u)
    (hfail : uploadOne s book_id ts pre.length p = Except.error e)
    (hdocx : collectImages docxMediaFilter members' = Except.ok (pre' ++ q :: post'))
    (hok' : ∀ i, (hi : i < pre'.length) →
      ∃ u, uploadOne s book_id' ts' i (pre'.get ⟨i, hi⟩) = Except.ok u)
    (hfail' : uploadOne s book_id' ts' pre'.length q = Except.error e') :
    extract_epub s (Except.ok members) book_id ts = Except.error e
      ∧ extract_docx s (Except.ok members') book_id' ts' = Except.error e' := by
  constructor
  · have h2 := phase2_error_of_upload_failure s book_id ts pre p post 0 [] e
      (fun i hi => by simpa using hok i hi) (by simpa using hfail)
    simp only [extract_epub, hepub, h2]
  · have h2 := phase2_error_of_upload_failure s book_id' ts' pre' q post' 0 [] e'
      (fun i hi => by simpa using hok' i hi) (by simpa using hfail')
    simp only [extract_docx, hdocx, h2]

/-- Witness for C1: a single-image EPUB and a single-image DOCX whose storage put fails with
`boom` both abort with the wrapped storage error. -/
theorem extract_upload_failure_aborts_witness :
    extract_epub failStorage (Except.ok epubFailMembers) "bk" (fun _ => 0)
        = Except.error (AppError.Internal "R2 upload failed: boom")
      ∧ extract_docx failStorage (Except.ok docxFailMembers) "bk" (fun _ => 0)
        = Except.error (AppError.Internal "R2 upload failed: boom") :=
  extract_upload_failure_aborts failStorage "bk" "bk" (fun _ => 0) (fun _ => 0)
    epubFailMembers docxFailMembers [] [] [] []
    { name := "img.png", buffer := [1], content_type := "image/png", size := 1 }
    { name := "word/media/img.png", buffer := [2], content_type := "image/png", size := 1 }
    (AppError.Internal "R2 upload failed: boom") (AppError.Internal "R2 upload failed: boom")
    rfl (fun _ hi => absurd hi (by simp)) rfl
    rfl (fun _ hi => absurd hi (by simp)) rfl

theorem phase2_mapGet (s : StorageService) (book_id : String) (ts : Nat → Int) :
    ∀ (ps : List Pending) (n : Nat) (m0 : UrlMap) (imgs : List ExtractedImage) (m : UrlMap),
      phase2 s book_id ts n m0 ps = Except.ok (imgs, m) →
      ∀ k, mapGet m k =
        match lastWins (imgs.map fun img => (img.original_path, img.cdn_url)) k with
        | some u => some u
        | none => mapGet m0 k := by
  intro ps
  induction ps with
  | nil =>
    intro n m0 imgs m h k
    simp only [phase2, Except.ok.injEq, Prod.mk.injEq] at h
    obtain ⟨h1, h2⟩ := h
    subst h1
    subst h2
    simp [lastWins]
  | cons p rest ih =>
    intro n m0 imgs m h k
    simp only [phase2] at h
    cases hu : uploadOne s book_id ts n p with
    | error e => simp [hu] at h
    | ok u =>
      simp only [hu] at h
      cases hrec : phase2 s book_id ts (n + 1)
          (mapInsert (mapInsert m0 p.name u) (basenameOf p.name) u) rest with
      | error e => simp [hrec] at h
      | ok pr =>
        obtain ⟨imgs', fm⟩ := pr
        simp only [hrec, Except.ok.injEq, Prod.mk.injEq] at h
        obtain ⟨h1, h2⟩ := h
        subst h1
        subst h2
        have hih := ih (n + 1) (mapInsert (mapInsert m0 p.name u) (basenameOf p.name) u)
          imgs' fm hrec k
        simp only [List.map_cons, lastWins]
        cases hlw : lastWins (imgs'.map fun img => (img.original_path, img.cdn_url)) k with
        | some u' => simp only [hih, hlw]
        | none =>
          simp only [hih, hlw]
          by_cases hbn : k = basenameOf p.name
          · subst hbn
            simp [mapGet_mapInsert_self]
          · rw [mapGet_mapInsert_ne _ _ _ _ hbn]
            by_cases hnm : k = p.name
            · subst hnm
              simp [mapGet_mapInsert_self]
            · rw [mapGet_mapInsert_ne _ _ _ _ hnm]
              simp [hbn, hnm]

theorem lastWins_isSome_of_mem (k : String) (pr : String × String) :
    ∀ pairs : List (String × String), pr ∈ pairs → k = pr.1 ∨ k = basenameOf pr.1 →
      (lastWins pairs k).isSome = true := by
  intro pairs
  induction pairs with
  | nil =>
    intro hmem _
    cases hmem
  | cons q rest ih =>
    intro hmem hk
    obtain ⟨name, url⟩ := q
    simp only [lastWins]
    cases hlw : lastWins rest k with
    | some u => simp
    | none =>
      rcases List.mem_cons.mp hmem with heq | hm
      · subst heq
        have hcond : k = name ∨ k = basenameOf name := by simpa using hk
        rw [if_pos hcond]
        rfl
      · have hsome := ih hm hk
        rw [hlw] at hsome
        simp at hsome

/-- C4 amended: after phase 2 succeeds, every uploaded image has both its full path and its
basename present as keys, and lookup follows a last-wins discipline over BOTH kinds of
insertion: a key resolves to the URL of the last processed image whose path OR basename equals
it. Consequently the basename key resolves to the last image with that basename, but an
image's own full-path key resolves to its own URL only when no later image's path or basename
equals that path (the original claim's unconditional full-path guarantee fails, see the
counterexample). -/
theorem phase2_map_last_wins (s : StorageService) (book_id : String) (ts : Nat → Int)
    (ps : List Pending) (imgs : List ExtractedImage) (m : UrlMap)
    (h : phase2 s book_id ts 0 [] ps = Except.ok (imgs, m)) :
    (∀ k, mapGet m k = lastWins (imgs.map fun img => (img.original_path, img.cdn_url)) k)
    ∧ ∀ img ∈ imgs, (mapGet m img.original_path).isSome = true
        ∧ (mapGet m (basenameOf img.original_path)).isSome = true := by
  have hchar := phase2_mapGet s book_id ts ps 0 [] imgs m h
  have hmain : ∀ k, mapGet m k
      = lastWins (imgs.map fun img => (img.original_path, img.cdn_url)) k := by
    intro k
    have hk := hchar k
    cases hlw : lastWins (imgs.map fun img => (img.original_path, img.cdn_url)) k with
    | some u => simpa [hlw] using hk
    | none => simpa [hlw, mapGet] using hk
  refine ⟨hmain, fun img hmem => ⟨?_, ?_⟩⟩
  · rw [hmain]
    exact lastWins_isSome_of_mem img.original_path (img.original_path, img.cdn_url) _
      (List.mem_map_of_mem _ hmem) (Or.inl rfl)
  · rw [hmain]
    exact lastWins_isSome_of_mem (basenameOf img.original_path)
      (img.original_path, img.cdn_url) _ (List.mem_map_of_mem _ hmem) (Or.inr rfl)

/-- C4 counterexample: with two successfully uploaded images `img.png` and `dir/img.png`
(shared basename `img.png`, distinct URLs), the first image's own full-path key `img.png` no
longer resolves to that image's own URL `urlZero`: the second image's basename insertion
overwrote it with `urlOne`. -/
theorem phase2_fullpath_key_overwritten :
    phase2 okStorage "bk" (fun i => (i : Int)) 0 [] twoImgPends
        = Except.ok (twoImgImages, twoImgMap)
      ∧ twoImgImages.head? = some twoImgFirstImage
      ∧ twoImgFirstImage.cdn_url = urlZero
      ∧ mapGet twoImgMap "img.png" = some urlOne
      ∧ urlOne ≠ urlZero := by
  refine ⟨rfl, rfl, rfl, rfl, by decide⟩

/-- Witness for the amended C4: at the two-image instance the final map's lookup of `img.png`
agrees with the last-wins resolution over the processed pairs. -/
theorem phase2_map_last_wins_witness :
    mapGet twoImgMap "img.png"
      = lastWins (twoImgImages.map fun img => (img.original_path, img.cdn_url)) "img.png" :=
  (phase2_map_last_wins okStorage "bk" (fun i => (i : Int)) twoImgPends twoImgImages
    twoImgMap rfl).1 "img.png"

theorem collectHtml_eq (url_map : UrlMap) (members : List Member) (txt : Member → String)
    (htxt : ∀ mem ∈ members, is_content_file mem.name = true →
      mem.readText = Except.ok (txt mem)) :
    collectHtml url_map members
      = Except.ok ((members.filter fun mem => is_content_file mem.name).map
          fun mem => replace_image_urls (txt mem) url_map) := by
  induction members with
  | nil => rfl
  | cons mem rest ih =>
    have ih' := ih fun x hx hc => htxt x (List.mem_cons_of_mem _ hx) hc
    cases hc : is_content_file mem.name with
    | true =>
      simp [collectHtml, hc, htxt mem (List.mem_cons_self mem rest) hc, ih',
        List.filter_cons]
    | false => simp [collectHtml, hc, ih', List.filter_cons]

/-- C5: a member is selected as an EPUB content file iff its lowercased name ends in `.html`,
`.xhtml`, or `.htm` and contains neither `toc` nor `nav`; and the selected members' rewritten
HTML is joined in archive-enumeration order with the `\n\n<!-- Chapter Break -->\n\n`
separator between adjacent documents. -/
theorem epub_content_selection_and_join (s : StorageService) (book_id : String)
    (ts : Nat → Int) (members : List Member) (pending : List Pending)
    (images : List ExtractedImage) (url_map : UrlMap) (txt : Member → String)
    (hcollect : collectImages is_image_file members = Except.ok pending)
    (hphase2 : phase2 s book_id ts 0 [] pending = Except.ok (images, url_map))
    (htxt : ∀ mem ∈ members, is_content_file mem.name = true →
      mem.readText = Except.ok (txt mem)) :
    (∀ name : String, is_content_file name = true ↔
      ((endsWithStr (lowerStr name) ".html" = true
          ∨ endsWithStr (lowerStr name) ".xhtml" = true
          ∨ endsWithStr (lowerStr name) ".htm" = true)
        ∧ containsSub (lowerStr name) "toc" = false
        ∧ containsSub (lowerStr name) "nav" = false))
    ∧ extract_epub s (Except.ok members) book_id ts
        = Except.ok (ExtractedContent.mk
            (String.intercalate chapterBreakSep
              ((members.filter fun mem => is_content_file mem.name).map
                fun mem => replace_image_urls (txt mem) url_map))
            images) := by
  constructor
  · intro name
    simp only [is_content_file, Bool.and_eq_true, Bool.or_eq_true, Bool.not_eq_true']
    tauto
  · simp only [extract_epub, hcollect, hphase2, collectHtml_eq url_map members txt htxt]

/-- Witness for C5: one content document, no images. -/
theorem epub_content_selection_and_join_witness :
    extract_epub okStorage (Except.ok oneDocMembers) "bk" (fun _ => 0)
      = Except.ok { html_content := "<p>hi</p>", images := [] } :=
  (epub_content_selection_and_join okStorage "bk" (fun _ => 0) oneDocMembers [] [] []
    oneDocText rfl rfl (by
      intro mem hmem _
      simp only [oneDocMembers, List.mem_singleton] at hmem
      subst hmem
      rfl)).2

/-- C10: when no member is named `word/document.xml`, or its text read fails (invalid UTF-8
leaves the buffer untouched), `extract_docx` discards the failure, converts the empty string,
and still returns a successful `ExtractedContent` carrying the uploaded images. -/
theorem extract_docx_ignores_missing_document_xml (s : StorageService) (book_id : String)
    (ts : Nat → Int) (members : List Member) (pending : List Pending)
    (images : List ExtractedImage) (url_map : UrlMap)
    (hcollect : collectImages docxMediaFilter members = Except.ok pending)
    (hphase2 : phase2 s book_id ts 0 [] pending = Except.ok (images, url_map))
    (hdoc : ∀ mem ∈ members, mem.name = "word/document.xml" →
      ∃ e, mem.readText = Except.error e) :
    extract_docx s (Except.ok members) book_id ts
      = Except.ok { html_content := docx_xml_to_html "" url_map, images := images } := by
  simp only [extract_docx, hcollect, hphase2]
  cases hfind : members.find? (fun mem => mem.name == "word/document.xml") with
  | none => simp [hfind]
  | some mem =>
    have hname : mem.name = "word/document.xml" := by
      have := List.find?_some hfind
      simpa using this
    obtain ⟨e, he⟩ := hdoc mem (List.mem_of_find?_eq_some hfind) hname
    simp [hfind, he]

/-- Witness for C10: a DOCX archive with one media image and no `word/document.xml` extracts
successfully, uploading the image. -/
theorem extract_docx_ignores_missing_document_xml_witness :
    extract_docx okStorage (Except.ok docxNoDocMembers) "bk" (fun _ => 0)
      = Except.ok (ExtractedContent.mk (docx_xml_to_html "" noDocMap) noDocImages) :=
  extract_docx_ignores_missing_document_xml okStorage "bk" (fun _ => 0) docxNoDocMembers
    noDocPending noDocImages noDocMap rfl rfl (by
      intro mem hmem hname
      simp only [docxNoDocMembers, List.mem_singleton] at hmem
      subst hmem
      exact absurd hname (by decide))

end NApi
